import Mathlib

/-!
Verification of the IGD patient-registry front-end (mutu--igd).

The TypeScript source is shallowly embedded: record collections are
`List PatientRecord`, JavaScript strings are Lean `String` (compared with the
lexicographic order, as `<` on JS strings is for the ASCII date/time strings
involved), JS string truthiness is `s ≠ ""`, and the remote store client
(`services/googleSheets`, behind `addPatientToDB` / `updatePatientInDB` /
`deletePatientFromDB`) is an explicit parameter giving each remote call's
outcome.  JS numbers are modelled as exact rationals plus explicit NaN and
infinity values where the dashboard arithmetic can produce them.
-/

/-- The patient record, from `types.ts` (`interface PatientRecord`).
All fields are strings except the secondary sequence number `no`. -/
structure PatientRecord where
  id : String
  no : Int
  tanggal : String
  noKib : String
  namaPasien : String
  prioritas : String
  jamDatang : String
  jamDokter : String
  dpjp : String
  dokterSpesialis : String
  jamKonsul : String
  jamRespon : String
  jamResponSpesialis : String
  ket : String
  ruangan : String
  masalah : String
deriving DecidableEq, Repr

/-- JS `toLowerCase()`, modelled characterwise with `Char.toLower` (ASCII
case mapping, which covers every string these views compare). -/
def jsToLower (s : String) : String := ⟨s.data.map Char.toLower⟩

/-- JS `hay.includes(needle)`: substring test on code units; modelled as the
infix relation on the character lists. -/
def jsIncludes (hay needle : String) : Bool :=
  decide (needle.toList <:+: hay.toList)

/-- `DataTable.tsx` lines 53-56, the `matchesSearch` conjunct of
`filteredData`: each of the three fields is lowercased and tested against the
lowercased search term. -/
def matchesSearchDT (item : PatientRecord) (searchTerm : String) : Bool :=
  jsIncludes (jsToLower item.namaPasien) (jsToLower searchTerm) ||
  jsIncludes (jsToLower item.noKib) (jsToLower searchTerm) ||
  jsIncludes (jsToLower item.dpjp) (jsToLower searchTerm)

/-- `DataTable.tsx` lines 58-64, the `matchesDate` flag of `filteredData`:
`matchesDate` starts `true` and is cleared by either failing bound check
inside `if (startDate || endDate)`, so it ends up as the conjunction of the
negated clearing conditions. -/
def matchesDateDT (item : PatientRecord) (startDate endDate : String) : Bool :=
  if startDate ≠ "" ∨ endDate ≠ "" then
    !(decide (startDate ≠ "") && decide (item.tanggal < startDate)) &&
    !(decide (endDate ≠ "") && decide (endDate < item.tanggal))
  else
    true

/-- `DataTable.tsx` lines 50-68 (`filteredData`): one pass of
`Array.prototype.filter` over the backing data with the search and date
conjuncts. -/
def filteredData (data : List PatientRecord) (searchTerm startDate endDate : String) :
    List PatientRecord :=
  data.filter (fun item => matchesSearchDT item searchTerm && matchesDateDT item startDate endDate)

/-- Reports view (`filteredPatients`) text conjunct: for a truthy search term,
the patient name is lowercased on both sides but the record number `noKib` is
compared against the raw search term. -/
def matchesSearchRP (p : PatientRecord) (searchTerm : String) : Bool :=
  if searchTerm ≠ "" then
    jsIncludes (jsToLower p.namaPasien) (jsToLower searchTerm) || jsIncludes p.noKib searchTerm
  else
    true

/-- Reports view `filteredPatients` (lines 22-29 of the reports panel source):
each date bound applies only when its string is truthy, and the three
conjuncts are combined with `&&`. -/
def filteredPatients (patients : List PatientRecord) (startDate endDate searchTerm : String) :
    List PatientRecord :=
  patients.filter (fun p =>
    (if startDate ≠ "" then decide (startDate ≤ p.tanggal) else true) &&
    (if endDate ≠ "" then decide (p.tanggal ≤ endDate) else true) &&
    matchesSearchRP p searchTerm)

/-- Written from the spec's words (refinement target): the query matches a
field case-insensitively when the lowercased query is a substring of the
lowercased field value. -/
def ciFieldMatch (field q : String) : Prop :=
  (jsToLower q).toList <:+: (jsToLower field).toList

/-- Written from the spec's words (refinement target): raw, case-sensitive
substring match of the query against a field value. -/
def csFieldMatch (field q : String) : Prop :=
  q.toList <:+: field.toList

/-- Written from the spec's words (refinement target): the claimed data-table
text criterion — case-insensitive match on name, record number, or attending
physician. -/
def claimTextDT (p : PatientRecord) (q : String) : Prop :=
  ciFieldMatch p.namaPasien q ∨ ciFieldMatch p.noKib q ∨ ciFieldMatch p.dpjp q

/-- Written from the spec's words (refinement target): the claimed reports
text criterion — case-insensitive match on name or record number. -/
def claimTextRP (p : PatientRecord) (q : String) : Prop :=
  ciFieldMatch p.namaPasien q ∨ ciFieldMatch p.noKib q

instance (f q : String) : Decidable (ciFieldMatch f q) :=
  List.decidableInfix _ _

instance (f q : String) : Decidable (csFieldMatch f q) :=
  List.decidableInfix _ _

instance (p : PatientRecord) (q : String) : Decidable (claimTextDT p q) := by
  unfold claimTextDT; infer_instance

instance (p : PatientRecord) (q : String) : Decidable (claimTextRP p q) := by
  unfold claimTextRP; infer_instance

/-- A record whose only populated field is an upper-case record number; used
to exercise the case-sensitivity of the reports-view record-number match. -/
def emptyRec : PatientRecord :=
  { id := "", no := 0, tanggal := "", noKib := "", namaPasien := "", prioritas := "",
    jamDatang := "", jamDokter := "", dpjp := "", dokterSpesialis := "", jamKonsul := "",
    jamRespon := "", jamResponSpesialis := "", ket := "", ruangan := "", masalah := "" }

def upperKibRec : PatientRecord := { emptyRec with noKib := "RM1" }

/-- Concrete collections exercising the bulk-import, category-count,
percentage and histogram paths on small inputs. -/
def importExisting : PatientRecord := { emptyRec with id := "1", noKib := "A" }
def importDupA : PatientRecord := { emptyRec with noKib := "A" }
def importB : PatientRecord := { emptyRec with noKib := "B" }
def importC : PatientRecord := { emptyRec with noKib := "C" }

def prioRecs : List PatientRecord :=
  [{ emptyRec with prioritas := "P1" }, { emptyRec with prioritas := "P1" },
   { emptyRec with prioritas := "P2" }, { emptyRec with prioritas := "P3" },
   { emptyRec with prioritas := "P5" }]

def pctRecs : List PatientRecord :=
  [{ emptyRec with ket := "Rawat Inap" }, emptyRec]

def arr14Rec : PatientRecord := { emptyRec with jamDatang := "14:30" }

def protoRecs : List PatientRecord := [{ emptyRec with ket := "__proto__" }]

def statusRecs : List PatientRecord :=
  [{ emptyRec with ket := "Rawat Inap" }, { emptyRec with ket := "Rawat Jalan" },
   { emptyRec with ket := "Rawat Inap" }]


/-- The record store client is not part of the sources; each handler is
embedded as a function of the remote call's outcome, the call's result being
consumed only after it is known (the `await` precedes every local change). -/
def handleDelete (deleteResult : Except String Unit) (data : List PatientRecord)
    (targetId : String) : List PatientRecord :=
  match deleteResult with
  | Except.ok _ => data.filter (fun item => decide (item.id ≠ targetId))
  | Except.error _ => data

/-- `DataTable.tsx` `handleSaveForm`, edit branch (lines 157-161): after
`updatePatientInDB` succeeds the local list is rebuilt with
`data.map(item => item.id === record.id ? record : item)`; a thrown error
reaches the catch block, which leaves the data untouched. -/
def handleSaveFormEdit (updateResult : Except String Unit) (record : PatientRecord)
    (data : List PatientRecord) : List PatientRecord :=
  match updateResult with
  | Except.ok _ => data.map (fun item => if item.id = record.id then record else item)
  | Except.error _ => data

/-- Outcome of the bulk-import handler: the local collection afterwards, the
items submitted to the remote store, and the count shown by the completion
notification (`none` when the early "all data already present" return fires
and no count is reported). -/
structure ImportOutcome where
  newData : List PatientRecord
  submitted : List PatientRecord
  notifiedCount : Option Nat

/-- `DataTable.tsx` `handleFileImport` (lines 196-235), after the file parses
to an array and the user confirms: duplicates by `noKib` against the current
data are dropped, every remaining item is submitted via `addPatientToDB` in
order, items whose create returned a truthy id are collected, and the
notification reports the collected count.  `create` gives each remote call's
outcome (`none` = falsy/no id). -/
def handleFileImport (create : PatientRecord → Option String)
    (data importedData : List PatientRecord) : ImportOutcome :=
  let existingRMs := data.map (fun d => d.noKib)
  let newItems := importedData.filter (fun d => !(existingRMs.contains d.noKib))
  if newItems.isEmpty then
    { newData := data, submitted := newItems, notifiedCount := none }
  else
    let addedItems := newItems.filterMap
      (fun item => (create item).map (fun newId => { item with id := newId }))
    { newData := addedItems ++ data, submitted := newItems,
      notifiedCount := some addedItems.length }

/-- Dashboard and reports panels, `priorityData`: one entry per fixed triage
class `P1..P5`, counting with `patients.filter(pt => pt.prioritas === p).length`. -/
def priorityData (patients : List PatientRecord) : List (String × Nat) :=
  ["P1", "P2", "P3", "P4", "P5"].map (fun p =>
    (p, (patients.filter (fun pt => decide (pt.prioritas = p))).length))

/-- First-occurrence deduplication: the order in which distinct values first
appear in a key sequence — the enumeration order of a JS object's own string
keys (insertion order). -/
def firstDedup : List String → List String
  | [] => []
  | a :: l => a :: (firstDedup l).filter (fun x => decide (x ≠ a))

/-- A value held in a bucket of the `statusCounts` plain object: a JS number,
or the non-numeric string produced when a read of the key found a truthy
value that is not a number (then `(v || 0) + 1` concatenates instead of
counting, and every later bump keeps concatenating). -/
inductive CounterVal where
  | num (n : Nat)
  | junk
deriving DecidableEq, Repr

/-- The own data-property names of `Object.prototype`: reading one of these
keys on a fresh `{}` yields the inherited (truthy) function. -/
def protoMethodKeys : List String :=
  ["constructor", "hasOwnProperty", "isPrototypeOf", "propertyIsEnumerable",
   "toLocaleString", "toString", "valueOf",
   "__defineGetter__", "__defineSetter__", "__lookupGetter__", "__lookupSetter__"]

/-- One `statusCounts[p.ket] = (statusCounts[p.ket] || 0) + 1` step on the
plain-object accumulator (own keys as an insertion-ordered association list),
with `Object.prototype` chain semantics: an own key is updated in place
(`num` buckets count, `junk` buckets concatenate and stay junk); for an
absent key `"__proto__"` the read yields the inherited prototype object
(truthy, so `+ 1` yields a string) and the write then hits the inherited
accessor setter, which silently discards non-object values — no own key is
created; an absent key naming a prototype method reads the inherited truthy
function, so the bucket is created holding a garbage string; any other
absent key reads `undefined` and the bucket is created at `0 + 1`. -/
def bumpStatus (counts : List (String × CounterVal)) (k : String) :
    List (String × CounterVal) :=
  match counts.lookup k with
  | some (CounterVal.num n) =>
      counts.map (fun kv => if kv.1 = k then (kv.1, CounterVal.num (n + 1)) else kv)
  | some CounterVal.junk =>
      counts.map (fun kv => if kv.1 = k then (kv.1, CounterVal.junk) else kv)
  | none =>
      if k = "__proto__" then counts
      else if k ∈ protoMethodKeys then counts ++ [(k, CounterVal.junk)]
      else counts ++ [(k, CounterVal.num 1)]

/-- The `statusCounts` object after the `forEach` loop over the collection. -/
def statusCountsObj (patients : List PatientRecord) : List (String × CounterVal) :=
  patients.foldl (fun counts p => bumpStatus counts p.ket) []

/-- Dashboard and reports panels, `statusData`:
`Object.keys(statusCounts).map(key => ({name: key, value: statusCounts[key]}))`
— the own keys in insertion order, each with its stored bucket value. -/
def statusData (patients : List PatientRecord) : List (String × CounterVal) :=
  statusCountsObj patients

/-- Numeric reading of a bucket; a `junk` bucket holds no count. -/
def counterNum : CounterVal → Nat
  | CounterVal.num n => n
  | CounterVal.junk => 0

/-- Closed-form shape of the counter object over a processed key sequence:
one entry per distinct non-`"__proto__"` key in first-occurrence order,
holding `junk` for prototype-method names and the key's multiplicity
otherwise. -/
def specCounts (l : List String) : List (String × CounterVal) :=
  (firstDedup (l.filter (fun k => decide (k ≠ "__proto__")))).map
    (fun k => (k, if k ∈ protoMethodKeys then CounterVal.junk
                  else CounterVal.num (l.count k)))

/-- Value of a character as a digit in bases up to 36 (`99` marks a
non-digit; it is only ever compared against the radix). -/
def digitValue (c : Char) : Nat :=
  if c.isDigit then c.toNat - 48
  else if 'a' ≤ c ∧ c ≤ 'z' then c.toNat - 87
  else if 'A' ≤ c ∧ c ≤ 'Z' then c.toNat - 55
  else 99

def isRadixDigit (radix : Nat) (c : Char) : Bool :=
  decide (digitValue c < radix)

/-- JS `parseInt(s)` with no radix argument: skip leading whitespace, read an
optional sign, switch to base 16 after a `0x`/`0X` prefix, then take the
longest run of digits; `none` models `NaN` (no digits). Trailing characters
are ignored. -/
def jsParseInt (s : String) : Option Int :=
  let cs := s.toList.dropWhile (fun c => c.isWhitespace)
  let signed : Int × List Char :=
    match cs with
    | '-' :: rest => (-1, rest)
    | '+' :: rest => (1, rest)
    | _ => (1, cs)
  let based : Nat × List Char :=
    match signed.2 with
    | '0' :: 'x' :: rest => (16, rest)
    | '0' :: 'X' :: rest => (16, rest)
    | _ => (10, signed.2)
  let ds := based.2.takeWhile (isRadixDigit based.1)
  if ds = [] then none
  else some (signed.1 * (ds.foldl (fun a c => a * based.1 + digitValue c) 0 : Nat))

/-- `p.jamDatang.split(':')[0]`: the first `:`-separated segment. -/
def splitHeadColon (s : String) : String :=
  ⟨s.data.takeWhile (fun c => decide (c ≠ ':'))⟩

/-- The guarded hour extraction in the arrival-trend loop: skip a falsy (empty)
or `"-"` arrival time, else `parseInt` the part before the colon (`none` both
for the skip and for `isNaN(hour)`). -/
def arrivalHour (p : PatientRecord) : Option Int :=
  if p.jamDatang ≠ "" ∧ p.jamDatang ≠ "-" then jsParseInt (splitHeadColon p.jamDatang)
  else none

/-- One loop iteration: `timeBins[hour]++` for a non-NaN hour.  A JS write
outside indices `0..23` lands beyond the `Array(24).fill(0)` region and is
discarded by the final `i <= 22` index filter, so only in-range writes are
modelled. -/
def bumpBin (bins : List Nat) (p : PatientRecord) : List Nat :=
  match arrivalHour p with
  | some h => if 0 ≤ h ∧ h < 24 then bins.set h.toNat (bins.getD h.toNat 0 + 1) else bins
  | none => bins

/-- `timeBins`: `Array(24).fill(0)` bumped once per record. -/
def timeBins (patients : List PatientRecord) : List Nat :=
  patients.foldl bumpBin (List.replicate 24 0)

/-- `arrivalTrendData` from both the dashboard and the reports panel:
`timeBins.map((count, hour) => ...)` keeps each bucket with its index, and
`.filter((_, i) => i >= 6 && i <= 22)` restricts to hours 6..22.  Modelled as
`(hour, count)` pairs. -/
def arrivalTrendData (patients : List PatientRecord) : List (Nat × Nat) :=
  (timeBins patients).enum.filter (fun x => decide (6 ≤ x.1) && decide (x.1 ≤ 22))

/-- Number of records whose parsed arrival hour is exactly `h`. -/
def countHour (patients : List PatientRecord) (h : Nat) : Nat :=
  patients.countP (fun p => decide (arrivalHour p = some (h : Int)))

/-- A JS number as the dashboard arithmetic can produce it: a finite value
(modelled as an exact rational), `NaN`, or a signed infinity. -/
inductive JSNum where
  | num (q : ℚ)
  | nan
  | posInf
  | negInf
deriving DecidableEq, Repr

/-- JS numeric truthiness: `0`, `-0` and `NaN` are falsy. -/
def jsTruthy : JSNum → Bool
  | JSNum.num q => decide (q ≠ 0)
  | JSNum.nan => false
  | JSNum.posInf => true
  | JSNum.negInf => true

/-- JS `a || b` on numbers. -/
def jsOr (a b : JSNum) : JSNum :=
  if jsTruthy a then a else b

/-- JS division of two finite numbers: `0/0` is `NaN`, `x/0` is a signed
infinity, otherwise the exact quotient. -/
def jsDiv (a b : ℚ) : JSNum :=
  if b = 0 then (if a = 0 then JSNum.nan else if 0 < a then JSNum.posInf else JSNum.negInf)
  else JSNum.num (a / b)

/-- Multiplication by a positive finite literal (the `* 100`), preserving
`NaN` and infinities. -/
def jsMulPos (x : JSNum) (c : ℚ) : JSNum :=
  match x with
  | JSNum.num q => JSNum.num (q * c)
  | JSNum.nan => JSNum.nan
  | JSNum.posInf => JSNum.posInf
  | JSNum.negInf => JSNum.negInf

/-- JS `Math.round`: nearest integer, halves toward `+∞`; fixed on `NaN` and
the infinities. -/
def jsRound : JSNum → JSNum
  | JSNum.num q => JSNum.num ((round q : ℤ) : ℚ)
  | JSNum.nan => JSNum.nan
  | JSNum.posInf => JSNum.posInf
  | JSNum.negInf => JSNum.negInf

/-- Dashboard `rawatInap`: `patients.filter(p => p.ket === 'Rawat Inap').length`. -/
def rawatInap (patients : List PatientRecord) : Nat :=
  (patients.filter (fun p => decide (p.ket = "Rawat Inap"))).length

/-- Dashboard `totalPatients = patients.length`. -/
def totalPatients (patients : List PatientRecord) : Nat :=
  patients.length

/-- The inpatient-share figure of the dashboard's `StatCard` footer:
`Math.round((rawatInap/totalPatients)*100 || 0)`, with JS numbers modelled as
exact rationals plus `NaN`/infinity values. -/
def inpatientSharePct (patients : List PatientRecord) : JSNum :=
  jsRound (jsOr
    (jsMulPos (jsDiv (rawatInap patients : ℚ) (totalPatients patients : ℚ)) 100)
    (JSNum.num 0))

/-- The spec's date criterion, written from its words: an inclusive start
bound and an inclusive end bound, each imposing no constraint when absent,
dates compared lexicographically as strings. -/
def specDateOk (r : PatientRecord) (startDate endDate : String) : Prop :=
  (startDate ≠ "" → startDate ≤ r.tanggal) ∧ (endDate ≠ "" → r.tanggal ≤ endDate)

instance (r : PatientRecord) (s e : String) : Decidable (specDateOk r s e) := by
  unfold specDateOk; infer_instance

lemma matchesDateDT_eq_specDateOk (r : PatientRecord) (s e : String) :
    matchesDateDT r s e = decide (specDateOk r s e) := by
  unfold matchesDateDT specDateOk
  rw [Bool.eq_iff_iff]
  by_cases hs : s = "" <;> by_cases he : e = "" <;>
    simp [hs, he, not_lt]

/-- C1: the Filter Engine at both call sites returns exactly the stable
subsequence of records satisfying the conjunction of the (lexicographic,
inclusive, optional) date bounds with the call site's text criterion. -/
theorem filter_engine_exact (data : List PatientRecord) (q s e : String) :
    filteredData data q s e =
      data.filter (fun r => decide (specDateOk r s e) && matchesSearchDT r q) ∧
    (filteredData data q s e).Sublist data ∧
    filteredPatients data s e q =
      data.filter (fun r => decide (specDateOk r s e) && matchesSearchRP r q) ∧
    (filteredPatients data s e q).Sublist data := by
  refine ⟨?_, List.filter_sublist _, ?_, List.filter_sublist _⟩
  · unfold filteredData
    apply List.filter_congr
    intro r _
    rw [Bool.and_comm, matchesDateDT_eq_specDateOk]
  · unfold filteredPatients
    apply List.filter_congr
    intro r _
    unfold specDateOk
    by_cases hs : s = "" <;> by_cases he : e = "" <;>
      simp [hs, he, Bool.and_assoc]

/-- C8: filtering is idempotent — re-applying either call site's filter with
the same criteria to its own output returns the same list. -/
theorem filter_engine_idempotent (data : List PatientRecord) (q s e : String) :
    filteredData (filteredData data q s e) q s e = filteredData data q s e ∧
    filteredPatients (filteredPatients data s e q) s e q = filteredPatients data s e q := by
  constructor
  · unfold filteredData
    rw [List.filter_filter]
    apply List.filter_congr
    intro r _
    cases h : matchesSearchDT r q && matchesDateDT r s e <;> simp [h]
  · unfold filteredPatients
    rw [List.filter_filter]
    apply List.filter_congr
    intro r _
    cases h : (if s ≠ "" then decide (s ≤ r.tanggal) else true) &&
        ((if e ≠ "" then decide (r.tanggal ≤ e) else true) && matchesSearchRP r q) <;>
      simp [h]

lemma jsIncludes_eq_true_iff (hay needle : String) :
    jsIncludes hay needle = true ↔ needle.toList <:+: hay.toList := by
  simp [jsIncludes]

/-- C2 counterexample: in the reports view the record-number comparison is
case-sensitive, so a record with `noKib = "RM1"` and the query `"rm1"` is
claimed to match (lowercased query is a substring of the lowercased record
number) but the code rejects it. -/
theorem search_ci_counterexample :
    ¬ (matchesSearchRP upperKibRec "rm1" = true ↔ claimTextRP upperKibRec "rm1") := by
  decide

/-- C2 amended: the data-table text match is case-insensitive substring match
on name, record number and attending physician, as claimed; the reports-view
match is case-insensitive on the name but case-sensitive (raw substring) on
the record number. -/
theorem search_text_semantics (p : PatientRecord) (q : String) :
    (matchesSearchDT p q = true ↔ claimTextDT p q) ∧
    (matchesSearchRP p q = true ↔ (ciFieldMatch p.namaPasien q ∨ csFieldMatch p.noKib q)) := by
  constructor
  · simp [matchesSearchDT, claimTextDT, ciFieldMatch, jsIncludes_eq_true_iff, or_assoc]
  · by_cases hq : q = ""
    · subst hq
      simp [matchesSearchRP, csFieldMatch]
    · simp [matchesSearchRP, hq, ciFieldMatch, csFieldMatch, jsIncludes_eq_true_iff]

/-- C5: the remote store call comes first in both handlers, and on a remote
failure the catch path leaves the local collection exactly as it was. -/
theorem update_delete_atomic (err : String) (record : PatientRecord)
    (data : List PatientRecord) (targetId : String) :
    handleSaveFormEdit (Except.error err) record data = data ∧
    handleDelete (Except.error err) data targetId = data :=
  ⟨rfl, rfl⟩

/-- C7: `id` is the sole identity — a successful update keeps the length and
rewrites exactly the positions whose `id` matches the saved record's `id`,
leaving every other position untouched; a successful delete returns an
order-preserving sublist containing exactly the occurrences whose `id`
differs from the target. -/
theorem id_sole_identity (data : List PatientRecord) (record : PatientRecord)
    (targetId : String) :
    (handleSaveFormEdit (Except.ok ()) record data).length = data.length ∧
    (∀ i : Nat, (handleSaveFormEdit (Except.ok ()) record data)[i]? =
      (data[i]?).map (fun x => if x.id = record.id then record else x)) ∧
    (handleDelete (Except.ok ()) data targetId).Sublist data ∧
    (∀ r : PatientRecord, (handleDelete (Except.ok ()) data targetId).count r =
      if r.id = targetId then 0 else data.count r) := by
  refine ⟨List.length_map _ _, fun i => List.getElem?_map .., List.filter_sublist _, fun r => ?_⟩
  by_cases hid : r.id = targetId
  · rw [if_pos hid]
    refine List.count_eq_zero.2 fun hmem => ?_
    have := (List.mem_filter.mp hmem).2
    simp [hid] at this
  · rw [if_neg hid]
    exact List.count_filter (by simp [hid])

lemma length_filterMap_optionMap (g : PatientRecord → Option String)
    (h : PatientRecord → String → PatientRecord) (l : List PatientRecord) :
    (l.filterMap (fun a => (g a).map (h a))).length =
      (l.filter (fun a => (g a).isSome)).length := by
  induction l with
  | nil => rfl
  | cons a l ih =>
    cases hg : g a <;>
      simp [List.filterMap_cons, List.filter_cons, hg, ih]

/-- C6: bulk import drops every imported item whose `noKib` already occurs in
the local collection, submits exactly the remaining items (in order), and
when anything was submitted the completion notification reports exactly the
number of submitted items whose remote create returned an identity. -/
theorem bulk_import_dedup_and_count (create : PatientRecord → Option String)
    (data importedData : List PatientRecord) :
    (handleFileImport create data importedData).submitted =
      importedData.filter (fun d => !((data.map (fun x => x.noKib)).contains d.noKib)) ∧
    ((handleFileImport create data importedData).submitted ≠ [] →
      (handleFileImport create data importedData).notifiedCount =
        some (((handleFileImport create data importedData).submitted.filter
          (fun i => (create i).isSome)).length)) := by
  unfold handleFileImport
  by_cases hempty :
      (importedData.filter (fun d => !((data.map (fun x => x.noKib)).contains d.noKib))).isEmpty
  · rw [if_pos hempty]
    exact ⟨rfl, fun hne => absurd (List.isEmpty_iff.mp hempty) hne⟩
  · rw [if_neg hempty]
    exact ⟨rfl, fun _ => congrArg some
      (length_filterMap_optionMap create (fun item newId => { item with id := newId })
        (importedData.filter (fun d => !((data.map (fun x => x.noKib)).contains d.noKib))))⟩

/-- Witness for C6: importing three items, one of which duplicates the
existing record number "A", submits exactly two items and reports 2. -/
theorem bulk_import_witness :
    (handleFileImport (fun r => some r.noKib) [importExisting]
      [importDupA, importB, importC]).submitted.length = 2 ∧
    (handleFileImport (fun r => some r.noKib) [importExisting]
      [importDupA, importB, importC]).notifiedCount = some 2 := by
  have h := bulk_import_dedup_and_count (fun r => some r.noKib) [importExisting]
    [importDupA, importB, importC]
  refine ⟨by rw [h.1]; decide, ?_⟩
  rw [h.2 (by rw [h.1]; decide), h.1]
  decide

lemma firstDedup_nodup (l : List String) : (firstDedup l).Nodup := by
  induction l with
  | nil => simp [firstDedup]
  | cons a l ih =>
    refine List.nodup_cons.mpr ⟨fun hmem => ?_, ih.filter _⟩
    have := (List.mem_filter.mp hmem).2
    simp at this

lemma mem_firstDedup (x : String) (l : List String) : x ∈ firstDedup l ↔ x ∈ l := by
  induction l with
  | nil => simp [firstDedup]
  | cons a l ih =>
    by_cases hxa : x = a
    · subst hxa; simp [firstDedup]
    · simp [firstDedup, hxa, List.mem_filter, ih]

lemma length_filter_eq_count_map (f : PatientRecord → String) (v : String)
    (l : List PatientRecord) :
    (l.filter (fun r => decide (f r = v))).length = (l.map f).count v := by
  induction l with
  | nil => rfl
  | cons a l ih =>
    by_cases h : f a = v <;>
      simp [List.filter_cons, h, List.count_cons, ih, Nat.add_comm]

lemma sum_map_ite_count (a : String) (ks : List String) :
    (ks.map (fun k => if a = k then (1 : Nat) else 0)).sum = ks.count a := by
  induction ks with
  | nil => rfl
  | cons b ks ih =>
    by_cases h : a = b
    · subst h
      simp [List.count_cons, ih, Nat.add_comm]
    · simp [List.count_cons, h, Ne.symm h, ih]

lemma sum_map_count_of_cover (ks l : List String) (hnd : ks.Nodup)
    (hcov : ∀ x ∈ l, x ∈ ks) :
    (ks.map (fun k => l.count k)).sum = l.length := by
  induction l with
  | nil => simp
  | cons a l ih =>
    have hcov2 : ∀ x ∈ l, x ∈ ks := fun x hx => hcov x (List.mem_cons_of_mem _ hx)
    have ha : a ∈ ks := hcov a (List.mem_cons_self _ _)
    have step : (ks.map (fun k => (a :: l).count k)).sum
        = (ks.map (fun k => l.count k + if a = k then 1 else 0)).sum := by
      refine congrArg List.sum (List.map_congr_left fun k _ => ?_)
      by_cases h : a = k <;> simp [List.count_cons, h, eq_comm]
    rw [step, List.sum_map_add, ih hcov2, sum_map_ite_count,
      List.count_eq_one_of_mem hnd ha, List.length_cons]

lemma lookup_map_pair (ks : List String) (f : String → CounterVal) (k : String) :
    (ks.map (fun x => (x, f x))).lookup k = if k ∈ ks then some (f k) else none := by
  induction ks with
  | nil => simp
  | cons b ks ih =>
    by_cases hkb : k = b
    · subst hkb
      simp [List.lookup]
    · have hbeq : (k == b) = false := by simpa using hkb
      simp [List.lookup, hbeq, ih, hkb]

lemma firstDedup_append (l : List String) (a : String) :
    firstDedup (l ++ [a]) = if a ∈ l then firstDedup l else firstDedup l ++ [a] := by
  induction l with
  | nil => simp [firstDedup]
  | cons b l ih =>
    by_cases hal : a ∈ l
    · have hbl : a ∈ b :: l := List.mem_cons_of_mem _ hal
      simp [firstDedup, ih, hal, hbl]
    · by_cases hab : a = b
      · subst hab
        simp [firstDedup, ih, hal, List.filter_append]
      · have hnbl : ¬ a ∈ b :: l := by simp [hab, hal]
        simp [firstDedup, ih, hal, hnbl, List.filter_append, hab]

lemma bumpStatus_lookup_none (counts : List (String × CounterVal)) (k : String)
    (h : counts.lookup k = none) :
    bumpStatus counts k =
      if k = "__proto__" then counts
      else if k ∈ protoMethodKeys then counts ++ [(k, CounterVal.junk)]
      else counts ++ [(k, CounterVal.num 1)] := by
  unfold bumpStatus
  rw [h]

lemma bumpStatus_lookup_num (counts : List (String × CounterVal)) (k : String) (n : Nat)
    (h : counts.lookup k = some (CounterVal.num n)) :
    bumpStatus counts k =
      counts.map (fun kv => if kv.1 = k then (kv.1, CounterVal.num (n + 1)) else kv) := by
  unfold bumpStatus
  rw [h]

lemma bumpStatus_lookup_junk (counts : List (String × CounterVal)) (k : String)
    (h : counts.lookup k = some CounterVal.junk) :
    bumpStatus counts k =
      counts.map (fun kv => if kv.1 = k then (kv.1, CounterVal.junk) else kv) := by
  unfold bumpStatus
  rw [h]

lemma specCounts_append_new (l : List String) (a : String)
    (hpa : a ≠ "__proto__") (hal : ¬ a ∈ l) :
    specCounts (l ++ [a]) = specCounts l ++
      [(a, if a ∈ protoMethodKeys then CounterVal.junk else CounterVal.num 1)] := by
  have hfil : (l ++ [a]).filter (fun k => decide (k ≠ "__proto__"))
      = l.filter (fun k => decide (k ≠ "__proto__")) ++ [a] := by
    rw [List.filter_append]
    simp [hpa]
  have hnotf : ¬ a ∈ l.filter (fun k => decide (k ≠ "__proto__")) := fun hc =>
    hal (List.mem_filter.mp hc).1
  have hkeys : firstDedup ((l ++ [a]).filter (fun k => decide (k ≠ "__proto__")))
      = firstDedup (l.filter (fun k => decide (k ≠ "__proto__"))) ++ [a] := by
    rw [hfil, firstDedup_append, if_neg hnotf]
  unfold specCounts
  rw [hkeys, List.map_append]
  congr 1
  · refine List.map_congr_left fun k hk => ?_
    have hka : k ≠ a := fun hc => hnotf (hc ▸ (mem_firstDedup k _).mp hk)
    have hcnt : (l ++ [a]).count k = l.count k := by
      rw [List.count_append]
      simp [List.count_cons, hka]
    rw [hcnt]
  · have hc0 : l.count a = 0 := List.count_eq_zero_of_not_mem hal
    simp [List.count_append, hc0]

lemma bumpStatus_spec (l : List String) (a : String) :
    bumpStatus (specCounts l) a = specCounts (l ++ [a]) := by
  by_cases hpa : a = "__proto__"
  · subst hpa
    have hmem : ¬ "__proto__" ∈
        firstDedup (l.filter (fun k => decide (k ≠ "__proto__"))) := by
      rw [mem_firstDedup]
      simp
    have hlk : (specCounts l).lookup "__proto__" = none := by
      unfold specCounts
      rw [lookup_map_pair, if_neg hmem]
    rw [bumpStatus_lookup_none _ _ hlk, if_pos rfl]
    unfold specCounts
    have hfil : (l ++ ["__proto__"]).filter (fun k => decide (k ≠ "__proto__"))
        = l.filter (fun k => decide (k ≠ "__proto__")) := by
      rw [List.filter_append]
      simp
    rw [hfil]
    refine List.map_congr_left fun k hk => ?_
    have hk2 : k ≠ "__proto__" := by
      have hkf := (List.mem_filter.mp ((mem_firstDedup k _).mp hk)).2
      simpa using hkf
    have hcnt : (l ++ ["__proto__"]).count k = l.count k := by
      rw [List.count_append]
      simp [List.count_cons, hk2]
    rw [hcnt]
  · have hfil : (l ++ [a]).filter (fun k => decide (k ≠ "__proto__"))
        = l.filter (fun k => decide (k ≠ "__proto__")) ++ [a] := by
      rw [List.filter_append]
      simp [hpa]
    by_cases hal : a ∈ l
    · have haf : a ∈ l.filter (fun k => decide (k ≠ "__proto__")) :=
        List.mem_filter.mpr ⟨hal, by simpa using hpa⟩
      have hamem : a ∈ firstDedup (l.filter (fun k => decide (k ≠ "__proto__"))) :=
        (mem_firstDedup a _).mpr haf
      have hkeys : firstDedup ((l ++ [a]).filter (fun k => decide (k ≠ "__proto__")))
          = firstDedup (l.filter (fun k => decide (k ≠ "__proto__"))) := by
        rw [hfil, firstDedup_append, if_pos haf]
      by_cases hmk : a ∈ protoMethodKeys
      · have hlk : (specCounts l).lookup a = some CounterVal.junk := by
          unfold specCounts
          rw [lookup_map_pair, if_pos hamem, if_pos hmk]
        rw [bumpStatus_lookup_junk _ _ hlk]
        unfold specCounts
        rw [hkeys, List.map_map]
        refine List.map_congr_left fun k hk => ?_
        by_cases hka : k = a
        · subst hka
          simp [hmk]
        · have hcnt : (l ++ [a]).count k = l.count k := by
            rw [List.count_append]
            simp [List.count_cons, hka]
          simp [Function.comp, hka, hcnt]
      · have hlk : (specCounts l).lookup a = some (CounterVal.num (l.count a)) := by
          unfold specCounts
          rw [lookup_map_pair, if_pos hamem, if_neg hmk]
        rw [bumpStatus_lookup_num _ _ _ hlk]
        unfold specCounts
        rw [hkeys, List.map_map]
        refine List.map_congr_left fun k hk => ?_
        by_cases hka : k = a
        · subst hka
          have hcnt : (l ++ [k]).count k = l.count k + 1 := by
            rw [List.count_append]
            simp
          simp [Function.comp, hmk, hcnt]
        · have hcnt : (l ++ [a]).count k = l.count k := by
            rw [List.count_append]
            simp [List.count_cons, hka]
          simp [Function.comp, hka, hcnt]
    · have hnotf : ¬ a ∈ l.filter (fun k => decide (k ≠ "__proto__")) := fun hc =>
        hal (List.mem_filter.mp hc).1
      have hnotmem : ¬ a ∈ firstDedup (l.filter (fun k => decide (k ≠ "__proto__"))) :=
        fun hc => hnotf ((mem_firstDedup a _).mp hc)
      have hlk : (specCounts l).lookup a = none := by
        unfold specCounts
        rw [lookup_map_pair, if_neg hnotmem]
      rw [bumpStatus_lookup_none _ _ hlk, if_neg hpa, specCounts_append_new l a hpa hal]
      by_cases hmk : a ∈ protoMethodKeys
      · rw [if_pos hmk, if_pos hmk]
      · rw [if_neg hmk, if_neg hmk]

lemma statusCountsObj_eq_spec (patients : List PatientRecord) :
    statusCountsObj patients = specCounts (patients.map (fun p => p.ket)) := by
  have hfold : ∀ l : List String, l.foldl bumpStatus [] = specCounts l := by
    intro l
    induction l using List.reverseRecOn with
    | nil => rfl
    | append_singleton l a ih =>
      rw [List.foldl_append, List.foldl_cons, List.foldl_nil, ih, bumpStatus_spec]
  calc statusCountsObj patients
      = (patients.map (fun p => p.ket)).foldl bumpStatus [] :=
        (List.foldl_map _ _ _ _).symm
    _ = specCounts (patients.map (fun p => p.ket)) := hfold _

/-- C4 counterexample: a record with `ket = "__proto__"` is an observed
disposition value, yet the write is swallowed by the inherited prototype
accessor and `Object.keys` never lists it, so the chart has no entry for
it — the observed-values characterization fails at this input. -/
theorem status_keys_counterexample :
    ¬ ("__proto__" ∈ (statusData protoRecs).map Prod.fst ↔
        ∃ r ∈ protoRecs, r.ket = "__proto__") := by
  decide

/-- C4 amended: the priority chart carries all five fixed categories (zero
counts included) in order, and sums to the collection size under exhaustive
priorities; the disposition chart carries an entry exactly for each observed
`ket` value other than `"__proto__"`, whose write the inherited prototype
accessor swallows. -/
theorem category_counts_amended (patients : List PatientRecord) :
    (priorityData patients).map Prod.fst = ["P1", "P2", "P3", "P4", "P5"] ∧
    ((∀ r ∈ patients, r.prioritas ∈ (["P1", "P2", "P3", "P4", "P5"] : List String)) →
      ((priorityData patients).map Prod.snd).sum = patients.length) ∧
    (∀ k : String, k ∈ (statusData patients).map Prod.fst ↔
      ((∃ r ∈ patients, r.ket = k) ∧ k ≠ "__proto__")) := by
  refine ⟨rfl, ?_, ?_⟩
  · intro hcov
    have h1 : (priorityData patients).map Prod.snd
        = ["P1", "P2", "P3", "P4", "P5"].map
            (fun p => (patients.map (fun r => r.prioritas)).count p) := by
      simp [priorityData, List.map_map, Function.comp, length_filter_eq_count_map]
    rw [h1, sum_map_count_of_cover _ _ (by decide) ?_, List.length_map]
    intro x hx
    obtain ⟨r, hr, hrx⟩ := List.mem_map.mp hx
    exact hrx ▸ hcov r hr
  · intro k
    have h2 : (statusData patients).map Prod.fst
        = firstDedup ((patients.map (fun p => p.ket)).filter
            (fun k => decide (k ≠ "__proto__"))) := by
      rw [statusData, statusCountsObj_eq_spec]
      unfold specCounts
      rw [List.map_map]
      exact List.map_id _
    rw [h2, mem_firstDedup, List.mem_filter, List.mem_map]
    simp

/-- Witness for C4 (amended): five records with priorities P1,P1,P2,P3,P5
give priority counts summing to 5. -/
theorem category_counts_amended_witness :
    ((priorityData prioRecs).map Prod.snd).sum = 5 :=
  (category_counts_amended prioRecs).2.1 (by decide)

/-- C10 counterexample: a single record with `ket = "__proto__"` yields an
empty `statusData` (numeric sum 0), which does not equal the collection's
size 1 — the universal partition property fails at this input. -/
theorem status_partition_counterexample :
    ¬ (((statusData protoRecs).map (fun kv => counterNum kv.2)).sum
        = protoRecs.length) := by
  decide

/-- C10 amended: the disposition counts partition the collection whenever no
record's `ket` names an `Object.prototype` property — then every record
contributes exactly one count to its own `ket` bucket and the numeric bucket
values sum to the collection's size.  (A `ket` of `"__proto__"` creates no
bucket at all, and a `ket` naming a prototype method yields a non-numeric
bucket, so those cases must be excluded.) -/
theorem status_counts_partition_amended (patients : List PatientRecord)
    (hp : ∀ r ∈ patients, ¬ (r.ket = "__proto__" ∨ r.ket ∈ protoMethodKeys)) :
    ((statusData patients).map (fun kv => counterNum kv.2)).sum = patients.length := by
  rw [statusData, statusCountsObj_eq_spec]
  have hfl : (patients.map (fun p => p.ket)).filter (fun k => decide (k ≠ "__proto__"))
      = patients.map (fun p => p.ket) := by
    refine List.filter_eq_self.mpr fun x hx => ?_
    obtain ⟨r, hr, hrx⟩ := List.mem_map.mp hx
    have hxp : x ≠ "__proto__" := fun hc => hp r hr (Or.inl (hrx.trans hc))
    simpa using hxp
  have hvals : (specCounts (patients.map (fun p => p.ket))).map (fun kv => counterNum kv.2)
      = (firstDedup (patients.map (fun p => p.ket))).map
          (fun k => (patients.map (fun p => p.ket)).count k) := by
    unfold specCounts
    rw [hfl, List.map_map]
    refine List.map_congr_left fun k hk => ?_
    have hkl : k ∈ patients.map (fun p => p.ket) := (mem_firstDedup k _).mp hk
    obtain ⟨r, hr, hrk⟩ := List.mem_map.mp hkl
    have hmk : ¬ k ∈ protoMethodKeys := fun hc => hp r hr (Or.inr (hrk ▸ hc))
    simp [Function.comp, hmk, counterNum]
  rw [hvals, sum_map_count_of_cover _ _ (firstDedup_nodup _)
    (fun x hx => (mem_firstDedup x _).mpr hx), List.length_map]

/-- Witness for C10 (amended): three records with ordinary dispositions
(two inpatient, one outpatient) give buckets whose counts sum to 3. -/
theorem status_counts_partition_amended_witness :
    ((statusData statusRecs).map (fun kv => counterNum kv.2)).sum = 3 :=
  status_counts_partition_amended statusRecs (by decide)

/-- C9: the dashboard inpatient share is `round(rawatInap/total*100)` for a
nonzero total and exactly `0` for an empty collection (the `0/0 = NaN` is
falsy, so `|| 0` replaces it before rounding). -/
theorem inpatient_pct_spec (patients : List PatientRecord) :
    (totalPatients patients = 0 → inpatientSharePct patients = JSNum.num 0) ∧
    (0 < totalPatients patients →
      inpatientSharePct patients =
        JSNum.num ((round ((rawatInap patients : ℚ) / (totalPatients patients : ℚ) * 100)
          : ℤ) : ℚ)) := by
  constructor
  · intro h0
    have hps : patients = [] := List.length_eq_zero.mp h0
    subst hps
    simp [inpatientSharePct, rawatInap, totalPatients, jsDiv, jsMulPos, jsOr, jsTruthy, jsRound]
  · intro hpos
    have hb : ((totalPatients patients : ℚ)) ≠ 0 := by
      exact_mod_cast Nat.pos_iff_ne_zero.mp hpos
    by_cases hz : ((rawatInap patients : ℚ) / (totalPatients patients : ℚ)) * 100 = 0
    · simp [inpatientSharePct, jsDiv, hb, jsMulPos, jsOr, jsTruthy, hz, jsRound]
    · simp [inpatientSharePct, jsDiv, hb, jsMulPos, jsOr, jsTruthy, hz, jsRound]

/-- Witness for C9: one inpatient out of two patients displays 50%. -/
theorem inpatient_pct_witness :
    0 < totalPatients pctRecs ∧ inpatientSharePct pctRecs = JSNum.num 50 := by
  refine ⟨by decide, ?_⟩
  rw [(inpatient_pct_spec pctRecs).2 (by decide)]
  have h1 : rawatInap pctRecs = 1 := rfl
  have h2 : totalPatients pctRecs = 2 := rfl
  rw [h1, h2]
  norm_num [round_eq]

lemma bumpBin_none (bins : List Nat) (p : PatientRecord) (h : arrivalHour p = none) :
    bumpBin bins p = bins := by
  unfold bumpBin
  rw [h]

lemma bumpBin_some (bins : List Nat) (p : PatientRecord) (n : Int)
    (h : arrivalHour p = some n) :
    bumpBin bins p =
      if 0 ≤ n ∧ n < 24 then bins.set n.toNat (bins.getD n.toNat 0 + 1) else bins := by
  unfold bumpBin
  rw [h]

lemma bumpBin_length (bins : List Nat) (p : PatientRecord) :
    (bumpBin bins p).length = bins.length := by
  cases harr : arrivalHour p with
  | none => rw [bumpBin_none _ _ harr]
  | some n =>
    rw [bumpBin_some _ _ _ harr]
    split <;> simp [List.length_set]

lemma bumpBin_getD (bins : List Nat) (p : PatientRecord) (h : Nat)
    (hlen : bins.length = 24) (hh : h < 24) :
    (bumpBin bins p).getD h 0 =
      bins.getD h 0 + if arrivalHour p = some (h : Int) then 1 else 0 := by
  cases harr : arrivalHour p with
  | none => simp [bumpBin_none _ _ harr]
  | some n =>
    rw [bumpBin_some _ _ _ harr]
    by_cases hcond : 0 ≤ n ∧ n < 24
    · rw [if_pos hcond]
      by_cases heq : n = (h : Int)
      · subst heq
        simp [List.getD_eq_getElem?_getD, List.getElem?_set, hlen, hh, Int.toNat_natCast]
      · have hk : ¬ n.toNat = h := by omega
        simp [List.getD_eq_getElem?_getD, List.getElem?_set, hk, heq]
    · rw [if_neg hcond]
      have hne : ¬ (n = (h : Int)) := by omega
      simp [hne]

lemma foldl_bumpBin (ps : List PatientRecord) :
    ∀ bins : List Nat, bins.length = 24 →
      ps.foldl bumpBin bins = (List.range 24).map (fun h => bins.getD h 0 + countHour ps h) := by
  induction ps with
  | nil =>
    intro bins hlen
    refine List.ext_getElem (by simp [hlen]) ?_
    intro i h1 h2
    have hb : i < bins.length := by simpa using h1
    simp [countHour, List.getElem_map, List.getElem_range, List.getD_eq_getElem?_getD,
      List.getElem?_eq_getElem hb]
  | cons p ps ih =>
    intro bins hlen
    rw [List.foldl_cons, ih (bumpBin bins p) (by rw [bumpBin_length, hlen])]
    refine List.map_congr_left fun h hmem => ?_
    have hh : h < 24 := List.mem_range.mp hmem
    rw [bumpBin_getD bins p h hlen hh]
    have hcnt : countHour (p :: ps) h
        = countHour ps h + if arrivalHour p = some (h : Int) then 1 else 0 := by
      simp [countHour, List.countP_cons]
    rw [hcnt]
    omega

lemma timeBins_eq (ps : List PatientRecord) :
    timeBins ps = (List.range 24).map (fun h => countHour ps h) := by
  rw [timeBins, foldl_bumpBin ps (List.replicate 24 0) (by simp)]
  refine List.map_congr_left fun h hmem => ?_
  have hh : h < 24 := List.mem_range.mp hmem
  rw [List.getD_eq_getElem?_getD, List.getElem?_replicate, if_pos hh]
  simp

lemma enum_map_range (f : Nat → Nat) (n : Nat) :
    ((List.range n).map f).enum = (List.range n).map (fun i => (i, f i)) := by
  refine List.ext_getElem (by simp) ?_
  intro i h1 h2
  simp [List.getElem_enum, List.getElem_map, List.getElem_range]

lemma arrivalTrendData_eq (ps : List PatientRecord) :
    arrivalTrendData ps = (List.range' 6 17).map (fun h => (h, countHour ps h)) := by
  rw [arrivalTrendData, timeBins_eq, enum_map_range, List.filter_map]
  have hpred : (List.range 24).filter
      ((fun x : Nat × Nat => decide (6 ≤ x.1) && decide (x.1 ≤ 22)) ∘
        (fun i => (i, countHour ps i)))
      = (List.range 24).filter (fun i => decide (6 ≤ i) && decide (i ≤ 22)) :=
    List.filter_congr fun i _ => rfl
  rw [hpred]
  have hconc : (List.range 24).filter (fun i => decide (6 ≤ i) && decide (i ≤ 22))
      = List.range' 6 17 := by decide
  rw [hconc]

/-- C3: the externally visible hour histogram carries exactly the buckets for
hours 6..22 in increasing order; a record arriving "14:30" adds exactly one
count to bucket 14 and nothing else; records with arrival "-", "" or "25:99"
change no visible bucket. -/
theorem arrival_histogram (ps : List PatientRecord) (r : PatientRecord) :
    (arrivalTrendData ps).map Prod.fst = List.range' 6 17 ∧
    (r.jamDatang = "14:30" →
      arrivalTrendData (r :: ps) =
        (arrivalTrendData ps).map (fun x => if x.1 = 14 then (x.1, x.2 + 1) else x)) ∧
    (r.jamDatang = "-" ∨ r.jamDatang = "" ∨ r.jamDatang = "25:99" →
      arrivalTrendData (r :: ps) = arrivalTrendData ps) := by
  refine ⟨?_, ?_, ?_⟩
  · rw [arrivalTrendData_eq, List.map_map]
    exact List.map_id _
  · intro hr
    have harr : arrivalHour r = some 14 := by
      simp only [arrivalHour, hr]
      decide
    rw [arrivalTrendData_eq, arrivalTrendData_eq, List.map_map]
    refine List.map_congr_left fun h hmem => ?_
    have hcnt : countHour (r :: ps) h
        = countHour ps h + if arrivalHour r = some (h : Int) then 1 else 0 := by
      simp [countHour, List.countP_cons]
    by_cases h14 : h = 14
    · subst h14
      simp [hcnt, harr, Function.comp]
    · have hne : ¬ (arrivalHour r = some (h : Int)) := by
        rw [harr]
        simp
        omega
      simp [hcnt, hne, Function.comp, h14]
  · intro hcase
    have harr : arrivalHour r = none ∨ arrivalHour r = some 25 := by
      rcases hcase with h | h | h
      · left; simp only [arrivalHour, h]; decide
      · left; simp only [arrivalHour, h]; decide
      · right; simp only [arrivalHour, h]; decide
    rw [arrivalTrendData_eq, arrivalTrendData_eq]
    refine List.map_congr_left fun h hmem => ?_
    have hh : h < 23 := by
      have := List.mem_range'_1.mp hmem
      omega
    have hcnt : countHour (r :: ps) h
        = countHour ps h + if arrivalHour r = some (h : Int) then 1 else 0 := by
      simp [countHour, List.countP_cons]
    have hne : ¬ (arrivalHour r = some (h : Int)) := by
      rcases harr with h1 | h1 <;> rw [h1]
      · simp
      · simp
        omega
    simp [hcnt, hne]

/-- Witness for C3: one record arriving at "14:30" bumps exactly bucket 14 of
the empty histogram. -/
theorem arrival_histogram_witness :
    arr14Rec.jamDatang = "14:30" ∧
    arrivalTrendData [arr14Rec] =
      (arrivalTrendData []).map (fun x => if x.1 = 14 then (x.1, x.2 + 1) else x) :=
  ⟨rfl, (arrival_histogram [] arr14Rec).2.1 rfl⟩
